import Mathlib

/-!
Shallow embedding of `src/lock.ts` from julian91/redis-promise-lock.

The repository snapshot holds two variants of the `Lock` class, concatenated in
`src/lock.ts`:
* variant 1 (lines 1-127): the constructor checks `if (!redisClient)` and merges
  options with JavaScript `||` (so a supplied falsy value such as `0` falls back
  to the instance default, and the constructor performs no validation);
  `defaultRetryDelay = 1000`.
* variant 2 (lines 129-257): the constructor checks `redisClient === undefined`,
  resolves and validates options through `getOptions` at construction, and
  `getOptions` merges with `x !== undefined ? x : default`;
  `defaultRetryDelay = 100`.

Modelling conventions:
* JavaScript numbers are modelled as `Int` (every option value appearing in the
  repository's data model, tests and defaults is an integer).
* An optional field (`number | undefined`) is an `Option Int`.
* A thrown `Error` is `Except.error` carrying the source's message string.
* The redis client is replaced by an explicit trace of store operations, and the
  outcome of each `setNX` round-trip is drawn from an environment-supplied
  sequence `setNXResults : Nat → Bool` (attempt `i` reads `setNXResults i`).
* The current wall-clock time (`new Date().toISOString()`) is an explicit
  parameter `now : String`.
-/

def packageName : String := "redis-promise-lock"

structure LockOptions where
  retryLimit : Int
  retryDelay : Int
  ttl : Int
deriving Repr, DecidableEq

structure OptionalLockOptions where
  retryLimit : Option Int
  retryDelay : Option Int
  ttl : Option Int
deriving Repr, DecidableEq

/-- A JavaScript value passed where a lock name (a string) is expected: either a
string, `undefined` (argument missing), or some non-string value (whose JS
truthiness is recorded, since variant 1 tests `!lockName`). -/
inductive LockNameArg where
  | str (s : String)
  | undef
  | nonString (truthy : Bool)
deriving Repr, DecidableEq

def LockNameArg.isString : LockNameArg → Bool
  | .str _ => true
  | _ => false

/-- JavaScript truthiness of a lock-name argument; the empty string is falsy. -/
def LockNameArg.truthyB : LockNameArg → Bool
  | .str s => !s.isEmpty
  | .undef => false
  | .nonString t => t

/-- The redis-client constructor argument: a real client, `undefined`, or `null`. -/
inductive ClientArg where
  | present
  | undef
  | nullRef
deriving Repr, DecidableEq

/-- JavaScript truthiness of the client argument (`undefined` and `null` are falsy). -/
def ClientArg.truthyB : ClientArg → Bool
  | .present => true
  | _ => false

/-- One store (redis) operation, as issued by the Lock class. -/
inductive StoreOp where
  | setIfAbsent (key payload : String)
  | expire (key : String) (ttl : Int)
  | del (key : String)
deriving Repr, DecidableEq

/-- One observable event of a Lock call: a store operation or a `sleep` of
`retryDelay` milliseconds. -/
inductive Event where
  | op (o : StoreOp)
  | sleep (ms : Int)
deriving Repr, DecidableEq

def noClientMsg : String :=
  "[redis-promise-lock] - No redisClient provided."

def invalidRetryLimitMsg : String :=
  "[redis-promise-lock] - Invalid retryLimit provided! Must be a number greater than 0."

def invalidRetryDelayMsg : String :=
  "[redis-promise-lock] - Invalid retryDelay provided! Must be a number greater than 0."

def invalidTtlMsg : String :=
  "[redis-promise-lock] - Invalid ttl provided! Must be a number greater than or equal to 0."

/-- The three validation checks of `getOptions` (textually identical in both
variants, lines 68-70 and 196-198).  The `typeof x === 'number'` half of each
guard is vacuous in this model because option values are already `Int`. -/
def validateOptions (options : LockOptions) : Except String LockOptions :=
  if ¬ 0 < options.retryLimit then Except.error invalidRetryLimitMsg
  else if ¬ 0 < options.retryDelay then Except.error invalidRetryDelayMsg
  else if ¬ 0 ≤ options.ttl then Except.error invalidTtlMsg
  else Except.ok options

/-- `applyLock(key, payload, ttl)` (lines 82-89 and 210-217): performs `setNX`,
whose result is `setNXResult`, then — only when the lock was applied and the ttl
is nonzero (variant 1 tests `ttl && lockApplied`, variant 2 `ttl !== 0 &&
lockApplied`; over integers both mean `ttl ≠ 0 ∧ lockApplied`) — performs
`expire(key, ttl)`.  Returns the `setNX` result together with the operations
issued, in order. -/
def applyLock (key payload : String) (ttl : Int) (setNXResult : Bool) :
    Bool × List StoreOp :=
  let lockApplied := setNXResult
  if ttl ≠ 0 ∧ lockApplied = true then
    (lockApplied, [StoreOp.setIfAbsent key payload, StoreOp.expire key ttl])
  else
    (lockApplied, [StoreOp.setIfAbsent key payload])

/-- The payload string `JSON.stringify({ lockedSince: now })` built at the start
of `acquireLock`. -/
def payloadFor (now : String) : String :=
  "\x7b\"lockedSince\":\"" ++ now ++ "\"\x7d"

/-- The `while (!lockApplied && counter < retryLimit)` loop of `acquireLock`
(lines 118-123 and 246-251, textually identical in both variants): each
iteration sleeps `retryDelay`, re-runs `applyLock` (attempt number `counter+1`,
reading `setNXResults (counter+1)`), and increments `counter`.  Returns the
final `lockApplied` together with the events of the loop, in order. -/
def acquireLoop (setNXResults : Nat → Bool) (key payload : String)
    (ttl retryDelay retryLimit : Int) (counter : Nat) (lockApplied : Bool) :
    Bool × List Event :=
  if _h : lockApplied = false ∧ (counter : Int) < retryLimit then
    let attempt := applyLock key payload ttl (setNXResults (counter + 1))
    let rest := acquireLoop setNXResults key payload ttl retryDelay retryLimit
      (counter + 1) attempt.1
    (rest.1, Event.sleep retryDelay :: (attempt.2.map Event.op ++ rest.2))
  else
    (lockApplied, [])
termination_by (retryLimit - (counter : Int)).toNat
decreasing_by
  omega

/-- The body of `acquireLock` after options and key are resolved (identical in
both variants): build the payload once, run the first attempt (reading
`setNXResults 0`), then the retry loop starting at `counter = 0`. -/
def acquireBody (opts : LockOptions) (key : String) (now : String)
    (setNXResults : Nat → Bool) : Bool × List Event :=
  let payload := payloadFor now
  let first := applyLock key payload opts.ttl (setNXResults 0)
  let rest := acquireLoop setNXResults key payload opts.ttl opts.retryDelay
    opts.retryLimit 0 first.1
  (rest.1, first.2.map Event.op ++ rest.2)

def countSet (evs : List Event) : Nat :=
  evs.countP fun e => match e with
    | Event.op (StoreOp.setIfAbsent _ _) => true
    | _ => false

def countSleep (evs : List Event) : Nat :=
  evs.countP fun e => match e with
    | Event.sleep _ => true
    | _ => false

def countExpire (ops : List StoreOp) : Nat :=
  ops.countP fun o => match o with
    | StoreOp.expire _ _ => true
    | _ => false

namespace V1

def invalidLockNameMsg : String :=
  "[redis-promise-lock] - Invalid lockName provided! Must be a string."

/-- JavaScript `x || dflt` on an optional number: `undefined` and `0` are falsy
and yield the default; any other number is kept. -/
def jsOr (v : Option Int) (dflt : Int) : Int :=
  match v with
  | some x => if x = 0 then dflt else x
  | none => dflt

/-- Built-in instance defaults of variant 1 (lines 23-25). -/
def builtinDefaults : LockOptions := ⟨10, 1000, 3⟩

/-- Variant 1 constructor (lines 38-44): throws when the client is falsy
(`undefined` or `null`), then stores `options.x || default` for each field —
with no validation.  Returns the stored instance defaults. -/
def Lock.mk (redisClient : ClientArg) (options : OptionalLockOptions) :
    Except String LockOptions :=
  if redisClient.truthyB = false then Except.error noClientMsg
  else Except.ok
    ⟨jsOr options.retryLimit builtinDefaults.retryLimit,
     jsOr options.retryDelay builtinDefaults.retryDelay,
     jsOr options.ttl builtinDefaults.ttl⟩

/-- Variant 1 `getRedisKey` (lines 51-54): `if (!lockName || typeof lockName !==
'string') throw`, i.e. it rejects exactly the non-strings and the empty string
(the only falsy string); otherwise returns `packageName + ":" + lockName`. -/
def getRedisKey (lockName : LockNameArg) : Except String String :=
  match lockName with
  | LockNameArg.str s =>
    if s = "" then Except.error invalidLockNameMsg
    else Except.ok (packageName ++ ":" ++ s)
  | _ => Except.error invalidLockNameMsg

/-- Variant 1 `getOptions` (lines 61-73): merge each field with `||` against the
instance defaults, then validate. -/
def getOptions (defaults : LockOptions) (lockSpecificOptions : OptionalLockOptions) :
    Except String LockOptions :=
  validateOptions
    ⟨jsOr lockSpecificOptions.retryLimit defaults.retryLimit,
     jsOr lockSpecificOptions.retryDelay defaults.retryDelay,
     jsOr lockSpecificOptions.ttl defaults.ttl⟩

/-- Variant 1 `releaseLock` (lines 95-98): derive the key, then `del` it.
Returns the outcome and the store events issued before returning/throwing. -/
def releaseLock (lockName : LockNameArg) : Except String Unit × List Event :=
  match getRedisKey lockName with
  | Except.error e => (Except.error e, [])
  | Except.ok key => (Except.ok (), [Event.op (StoreOp.del key)])

/-- Variant 1 `acquireLock` (lines 111-126): resolve options, derive the key,
build the payload once, then first attempt plus retry loop.  No store event is
issued before either throw. -/
def acquireLock (defaults : LockOptions) (lockName : LockNameArg)
    (lockSpecificOptions : OptionalLockOptions) (now : String)
    (setNXResults : Nat → Bool) : Except String Bool × List Event :=
  match getOptions defaults lockSpecificOptions with
  | Except.error e => (Except.error e, [])
  | Except.ok opts =>
    match getRedisKey lockName with
    | Except.error e => (Except.error e, [])
    | Except.ok key =>
      let body := acquireBody opts key now setNXResults
      (Except.ok body.1, body.2)

end V1

namespace V2

def invalidLockNameMsg : String :=
  "[redis-promise-lock] - Invalid lockName provided! Must be a non empty string."

/-- Built-in instance defaults of variant 2 (lines 150-152). -/
def builtinDefaults : LockOptions := ⟨10, 100, 3⟩

/-- Variant 2 `getOptions` (lines 189-201): merge each field with
`x !== undefined ? x : default`, then validate. -/
def getOptions (defaults : LockOptions) (lockSpecificOptions : OptionalLockOptions) :
    Except String LockOptions :=
  validateOptions
    ⟨lockSpecificOptions.retryLimit.getD defaults.retryLimit,
     lockSpecificOptions.retryDelay.getD defaults.retryDelay,
     lockSpecificOptions.ttl.getD defaults.ttl⟩

/-- Variant 2 constructor (lines 165-172): throws only when the client `===
undefined` (`null` passes), then resolves and validates the supplied options
against the built-in defaults via `getOptions`, storing the result; a
validation error propagates out of the constructor. -/
def Lock.mk (redisClient : ClientArg) (options : OptionalLockOptions) :
    Except String LockOptions :=
  if redisClient = ClientArg.undef then Except.error noClientMsg
  else getOptions builtinDefaults options

/-- Variant 2 `getRedisKey` (lines 179-182): `if (typeof lockName !== 'string'
|| lockName.length === 0) throw`; otherwise returns `packageName + ":" +
lockName`. -/
def getRedisKey (lockName : LockNameArg) : Except String String :=
  match lockName with
  | LockNameArg.str s =>
    if s = "" then Except.error invalidLockNameMsg
    else Except.ok (packageName ++ ":" ++ s)
  | _ => Except.error invalidLockNameMsg

/-- Variant 2 `releaseLock` (lines 223-226). -/
def releaseLock (lockName : LockNameArg) : Except String Unit × List Event :=
  match getRedisKey lockName with
  | Except.error e => (Except.error e, [])
  | Except.ok key => (Except.ok (), [Event.op (StoreOp.del key)])

/-- Variant 2 `acquireLock` (lines 239-254), same structure as variant 1. -/
def acquireLock (defaults : LockOptions) (lockName : LockNameArg)
    (lockSpecificOptions : OptionalLockOptions) (now : String)
    (setNXResults : Nat → Bool) : Except String Bool × List Event :=
  match getOptions defaults lockSpecificOptions with
  | Except.error e => (Except.error e, [])
  | Except.ok opts =>
    match getRedisKey lockName with
    | Except.error e => (Except.error e, [])
    | Except.ok key =>
      let body := acquireBody opts key now setNXResults
      (Except.ok body.1, body.2)

end V2

section LoopLemmas

variable (res : Nat → Bool) (key payload : String) (ttl retryDelay : Int)

lemma applyLock_fst (r : Bool) : (applyLock key payload ttl r).1 = r := by
  simp only [applyLock]
  split <;> rfl

lemma applyLock_of_false :
    applyLock key payload ttl false = (false, [StoreOp.setIfAbsent key payload]) := by
  simp [applyLock]

lemma countSet_append (a b : List Event) :
    countSet (a ++ b) = countSet a + countSet b := by
  simp [countSet, List.countP_append]

lemma countSleep_append (a b : List Event) :
    countSleep (a ++ b) = countSleep a + countSleep b := by
  simp [countSleep, List.countP_append]

lemma countSet_nil : countSet [] = 0 := rfl

lemma countSleep_nil : countSleep [] = 0 := rfl

lemma countSet_cons_sleep (ms : Int) (l : List Event) :
    countSet (Event.sleep ms :: l) = countSet l := by
  simp [countSet]

lemma countSleep_cons_sleep (ms : Int) (l : List Event) :
    countSleep (Event.sleep ms :: l) = countSleep l + 1 := by
  simp [countSleep]

lemma countSet_applyLock (r : Bool) :
    countSet ((applyLock key payload ttl r).2.map Event.op) = 1 := by
  simp only [applyLock]
  split <;> simp [countSet]

lemma countSleep_applyLock (r : Bool) :
    countSleep ((applyLock key payload ttl r).2.map Event.op) = 0 := by
  simp only [applyLock]
  split <;> simp [countSleep]

lemma applyLock_ops_mem (r : Bool) :
    ∀ o ∈ (applyLock key payload ttl r).2,
      o = StoreOp.setIfAbsent key payload ∨ o = StoreOp.expire key ttl := by
  intro o ho
  simp only [applyLock] at ho
  split at ho <;> simp at ho <;> tauto

lemma acquireLoop_of_true (rl : Int) (c : Nat) :
    acquireLoop res key payload ttl retryDelay rl c true = (true, []) := by
  rw [acquireLoop]
  simp

lemma acquireLoop_of_exit (rl : Int) (c : Nat) (b : Bool) (h : rl ≤ (c : Int)) :
    acquireLoop res key payload ttl retryDelay rl c b = (b, []) := by
  rw [acquireLoop]
  simp [not_lt.mpr h]

lemma acquireLoop_of_step (rl : Int) (c : Nat) (h : (c : Int) < rl) :
    acquireLoop res key payload ttl retryDelay rl c false =
      ((acquireLoop res key payload ttl retryDelay rl (c + 1) (res (c + 1))).1,
        Event.sleep retryDelay ::
          ((applyLock key payload ttl (res (c + 1))).2.map Event.op ++
            (acquireLoop res key payload ttl retryDelay rl (c + 1) (res (c + 1))).2)) := by
  conv_lhs => rw [acquireLoop]
  simp [h, applyLock_fst]

lemma acquireLoop_counts_le (R : Nat) :
    ∀ (n c : Nat) (b : Bool), R - c ≤ n →
      countSet (acquireLoop res key payload ttl retryDelay (R : Int) c b).2 ≤ n ∧
      countSleep (acquireLoop res key payload ttl retryDelay (R : Int) c b).2 ≤ n := by
  intro n
  induction n with
  | zero =>
    intro c b hc
    rw [acquireLoop_of_exit res key payload ttl retryDelay _ c b (by omega)]
    simp [countSet, countSleep]
  | succ n ih =>
    intro c b hc
    cases b with
    | true =>
      rw [acquireLoop_of_true]
      simp [countSet, countSleep]
    | false =>
      by_cases h : (c : Int) < (R : Int)
      · rw [acquireLoop_of_step res key payload ttl retryDelay _ c h]
        have hrec := ih (c + 1) (res (c + 1)) (by omega)
        simp only [countSet_cons_sleep, countSleep_cons_sleep, countSet_append,
          countSleep_append, countSet_applyLock, countSleep_applyLock]
        omega
      · rw [acquireLoop_of_exit res key payload ttl retryDelay _ c false (not_lt.mp h)]
        simp [countSet, countSleep]

lemma acquireLoop_all_fail (R : Nat) :
    ∀ (n c : Nat), R - c = n → c ≤ R →
      (∀ i, c < i → i ≤ R → res i = false) →
      (acquireLoop res key payload ttl retryDelay (R : Int) c false).1 = false ∧
      countSet (acquireLoop res key payload ttl retryDelay (R : Int) c false).2 = n ∧
      countSleep (acquireLoop res key payload ttl retryDelay (R : Int) c false).2 = n := by
  intro n
  induction n with
  | zero =>
    intro c hn hc hres
    rw [acquireLoop_of_exit res key payload ttl retryDelay _ c false (by omega)]
    simp [countSet, countSleep]
  | succ n ih =>
    intro c hn hc hres
    have hfail : res (c + 1) = false := hres (c + 1) (by omega) (by omega)
    rw [acquireLoop_of_step res key payload ttl retryDelay _ c (by omega), hfail]
    have hrec := ih (c + 1) (by omega) (by omega) (fun i hi hile => hres i (by omega) hile)
    simp only [countSet_cons_sleep, countSleep_cons_sleep, countSet_append,
      countSleep_append, countSet_applyLock, countSleep_applyLock]
    exact ⟨hrec.1, by omega, by omega⟩

lemma acquireLoop_success (R : Nat) :
    ∀ (n c N : Nat), N - c = n → c < N → N ≤ R →
      (∀ i, c < i → i < N → res i = false) → res N = true →
      (acquireLoop res key payload ttl retryDelay (R : Int) c false).1 = true ∧
      countSet (acquireLoop res key payload ttl retryDelay (R : Int) c false).2 = n ∧
      countSleep (acquireLoop res key payload ttl retryDelay (R : Int) c false).2 = n := by
  intro n
  induction n with
  | zero =>
    intro c N hn hc hN hres hsucc
    omega
  | succ n ih =>
    intro c N hn hc hN hres hsucc
    by_cases hcN : c + 1 = N
    · have htrue : res (c + 1) = true := by rw [hcN]; exact hsucc
      rw [acquireLoop_of_step res key payload ttl retryDelay _ c (by omega), htrue,
        acquireLoop_of_true res key payload ttl retryDelay]
      simp only [countSet_cons_sleep, countSleep_cons_sleep, countSet_append,
        countSleep_append, countSet_applyLock, countSleep_applyLock]
      refine ⟨trivial, by simp [countSet]; omega, by simp [countSleep]; omega⟩
    · have hfail : res (c + 1) = false := hres (c + 1) (by omega) (by omega)
      rw [acquireLoop_of_step res key payload ttl retryDelay _ c (by omega), hfail]
      have hrec := ih (c + 1) N (by omega) (by omega) hN
        (fun i hi hile => hres i (by omega) hile) hsucc
      simp only [countSet_cons_sleep, countSleep_cons_sleep, countSet_append,
        countSleep_append, countSet_applyLock, countSleep_applyLock]
      exact ⟨hrec.1, by omega, by omega⟩

lemma acquireLoop_false_counts (R : Nat) :
    ∀ (n c : Nat), R - c = n →
      (acquireLoop res key payload ttl retryDelay (R : Int) c false).1 = false →
      countSet (acquireLoop res key payload ttl retryDelay (R : Int) c false).2 = n ∧
      countSleep (acquireLoop res key payload ttl retryDelay (R : Int) c false).2 = n := by
  intro n
  induction n with
  | zero =>
    intro c hn hfst
    rw [acquireLoop_of_exit res key payload ttl retryDelay _ c false (by omega)]
    simp [countSet, countSleep]
  | succ n ih =>
    intro c hn hfst
    rw [acquireLoop_of_step res key payload ttl retryDelay _ c (by omega)] at hfst ⊢
    cases hres : res (c + 1) with
    | true =>
      rw [hres, acquireLoop_of_true res key payload ttl retryDelay] at hfst
      simp at hfst
    | false =>
      rw [hres] at hfst
      have hrec := ih (c + 1) (by omega) (by simpa using hfst)
      simp only [countSet_cons_sleep, countSleep_cons_sleep, countSet_append,
        countSleep_append, countSet_applyLock, countSleep_applyLock]
      omega

lemma acquireLoop_ops (R : Nat) :
    ∀ (n c : Nat) (b : Bool), R - c ≤ n →
      ∀ e ∈ (acquireLoop res key payload ttl retryDelay (R : Int) c b).2,
        e = Event.sleep retryDelay ∨
        e = Event.op (StoreOp.setIfAbsent key payload) ∨
        e = Event.op (StoreOp.expire key ttl) := by
  intro n
  induction n with
  | zero =>
    intro c b hc
    rw [acquireLoop_of_exit res key payload ttl retryDelay _ c b (by omega)]
    simp
  | succ n ih =>
    intro c b hc
    cases b with
    | true =>
      rw [acquireLoop_of_true]
      simp
    | false =>
      by_cases h : (c : Int) < (R : Int)
      · rw [acquireLoop_of_step res key payload ttl retryDelay _ c h]
        intro e he
        simp only [List.mem_cons, List.mem_append, List.mem_map] at he
        rcases he with he | ⟨o, ho, rfl⟩ | he
        · exact Or.inl he
        · rcases applyLock_ops_mem key payload ttl (res (c + 1)) o ho with h1 | h1 <;>
            simp [h1]
        · exact ih (c + 1) (res (c + 1)) (by omega) e he
      · rw [acquireLoop_of_exit res key payload ttl retryDelay _ c false (not_lt.mp h)]
        simp

end LoopLemmas

lemma getOptions_full_V2 (d : LockOptions) (rl rd ttl : Int)
    (hrl : 0 < rl) (hrd : 0 < rd) (httl : 0 ≤ ttl) :
    V2.getOptions d ⟨some rl, some rd, some ttl⟩ = Except.ok ⟨rl, rd, ttl⟩ := by
  simp [V2.getOptions, validateOptions, hrl, hrd, httl]

lemma getOptions_full_V1 (d : LockOptions) (rl rd ttl : Int)
    (hrl : 0 < rl) (hrd : 0 < rd) (httl : 0 ≤ ttl) (hd : 0 ≤ d.ttl) :
    V1.getOptions d ⟨some rl, some rd, some ttl⟩ =
      Except.ok ⟨rl, rd, if ttl = 0 then d.ttl else ttl⟩ := by
  have h1 : rl ≠ 0 := by omega
  have h2 : rd ≠ 0 := by omega
  by_cases h3 : ttl = 0
  · simp [V1.getOptions, V1.jsOr, validateOptions, h1, h2, h3, hrl, hrd, hd]
  · simp [V1.getOptions, V1.jsOr, validateOptions, h1, h2, h3, hrl, hrd, httl]

lemma getRedisKey_str_V1 (s : String) (hs : s ≠ "") :
    V1.getRedisKey (LockNameArg.str s) = Except.ok (packageName ++ ":" ++ s) := by
  simp [V1.getRedisKey, hs]

lemma getRedisKey_str_V2 (s : String) (hs : s ≠ "") :
    V2.getRedisKey (LockNameArg.str s) = Except.ok (packageName ++ ":" ++ s) := by
  simp [V2.getRedisKey, hs]

lemma acquireBody_eq (opts : LockOptions) (key now : String) (res : Nat → Bool) :
    acquireBody opts key now res =
      ((acquireLoop res key (payloadFor now) opts.ttl opts.retryDelay
          opts.retryLimit 0 (res 0)).1,
        (applyLock key (payloadFor now) opts.ttl (res 0)).2.map Event.op ++
          (acquireLoop res key (payloadFor now) opts.ttl opts.retryDelay
            opts.retryLimit 0 (res 0)).2) := by
  simp only [acquireBody, applyLock_fst]

lemma acquireBody_retry (R : Nat) (rd ttl : Int) (key now : String) (res : Nat → Bool) :
    countSet (acquireBody ⟨(R : Int), rd, ttl⟩ key now res).2 ≤ R + 1 ∧
    (∀ ms : Int, Event.sleep ms ∈ (acquireBody ⟨(R : Int), rd, ttl⟩ key now res).2 →
      ms = rd) ∧
    (∀ N : Nat, N ≤ R → (∀ i, i < N → res i = false) → res N = true →
      (acquireBody ⟨(R : Int), rd, ttl⟩ key now res).1 = true ∧
      countSet (acquireBody ⟨(R : Int), rd, ttl⟩ key now res).2 = N + 1 ∧
      countSleep (acquireBody ⟨(R : Int), rd, ttl⟩ key now res).2 = N) ∧
    ((∀ i, i ≤ R → res i = false) →
      (acquireBody ⟨(R : Int), rd, ttl⟩ key now res).1 = false ∧
      countSet (acquireBody ⟨(R : Int), rd, ttl⟩ key now res).2 = R + 1 ∧
      countSleep (acquireBody ⟨(R : Int), rd, ttl⟩ key now res).2 = R) ∧
    ((acquireBody ⟨(R : Int), rd, ttl⟩ key now res).1 = false →
      countSet (acquireBody ⟨(R : Int), rd, ttl⟩ key now res).2 = R + 1) ∧
    (∀ e ∈ (acquireBody ⟨(R : Int), rd, ttl⟩ key now res).2,
      e = Event.sleep rd ∨ e = Event.op (StoreOp.setIfAbsent key (payloadFor now)) ∨
      e = Event.op (StoreOp.expire key ttl)) := by
  rw [acquireBody_eq]
  dsimp only
  refine ⟨?_, ?_, ?_, ?_, ?_, ?_⟩
  · have hb := acquireLoop_counts_le res key (payloadFor now) ttl rd R R 0 (res 0)
      (by omega)
    simp only [countSet_append, countSet_applyLock]
    omega
  · intro ms hms
    simp only [List.mem_append, List.mem_map] at hms
    rcases hms with ⟨o, ho, heq⟩ | hms
    · simp at heq
    · have h := acquireLoop_ops res key (payloadFor now) ttl rd R R 0 (res 0)
        (by omega) _ hms
      rcases h with h | h | h <;> simp_all
  · intro N hN hfail hsucc
    cases N with
    | zero =>
      have h0 : res 0 = true := hsucc
      rw [h0, acquireLoop_of_true res key (payloadFor now) ttl rd]
      exact ⟨rfl,
        by simp only [countSet_append, countSet_applyLock, countSet_nil],
        by simp only [countSleep_append, countSleep_applyLock, countSleep_nil]⟩
    | succ M =>
      have h0 : res 0 = false := hfail 0 (Nat.succ_pos M)
      rw [h0]
      have hs := acquireLoop_success res key (payloadFor now) ttl rd R (M + 1) 0
        (M + 1) rfl (Nat.succ_pos M) hN (fun i h1 h2 => hfail i h2) hsucc
      refine ⟨hs.1, ?_, ?_⟩
      · simp only [countSet_append, countSet_applyLock]
        omega
      · simp only [countSleep_append, countSleep_applyLock]
        omega
  · intro hall
    have h0 : res 0 = false := hall 0 (Nat.zero_le R)
    rw [h0]
    have ha := acquireLoop_all_fail res key (payloadFor now) ttl rd R R 0 rfl
      (Nat.zero_le R) (fun i h1 h2 => hall i h2)
    refine ⟨ha.1, ?_, ?_⟩
    · simp only [countSet_append, countSet_applyLock]
      omega
    · simp only [countSleep_append, countSleep_applyLock]
      omega
  · intro hfst
    cases h0 : res 0 with
    | true =>
      rw [h0, acquireLoop_of_true res key (payloadFor now) ttl rd] at hfst
      simp at hfst
    | false =>
      rw [h0] at hfst
      have hc := acquireLoop_false_counts res key (payloadFor now) ttl rd R R 0 rfl
        hfst
      simp only [countSet_append, countSet_applyLock]
      omega
  · intro e he
    simp only [List.mem_append, List.mem_map] at he
    rcases he with ⟨o, ho, rfl⟩ | he
    · rcases applyLock_ops_mem key (payloadFor now) ttl (res 0) o ho with h | h <;>
        simp [h]
    · exact acquireLoop_ops res key (payloadFor now) ttl rd R R 0 (res 0)
        (by omega) e he

lemma acquireLock_eq_body_V1 (rl rd ttl : Int)
    (hrl : 0 < rl) (hrd : 0 < rd) (httl : 0 ≤ ttl)
    (s : String) (hs : s ≠ "") (now : String) (res : Nat → Bool) :
    V1.acquireLock V1.builtinDefaults (LockNameArg.str s)
        ⟨some rl, some rd, some ttl⟩ now res =
      (Except.ok (acquireBody ⟨rl, rd, if ttl = 0 then 3 else ttl⟩
          (packageName ++ ":" ++ s) now res).1,
        (acquireBody ⟨rl, rd, if ttl = 0 then 3 else ttl⟩
          (packageName ++ ":" ++ s) now res).2) := by
  unfold V1.acquireLock
  rw [getOptions_full_V1 V1.builtinDefaults rl rd ttl hrl hrd httl (by decide),
    getRedisKey_str_V1 s hs]
  rfl

lemma acquireLock_eq_body_V2 (rl rd ttl : Int)
    (hrl : 0 < rl) (hrd : 0 < rd) (httl : 0 ≤ ttl)
    (s : String) (hs : s ≠ "") (now : String) (res : Nat → Bool) :
    V2.acquireLock V2.builtinDefaults (LockNameArg.str s)
        ⟨some rl, some rd, some ttl⟩ now res =
      (Except.ok (acquireBody ⟨rl, rd, ttl⟩ (packageName ++ ":" ++ s) now res).1,
        (acquireBody ⟨rl, rd, ttl⟩ (packageName ++ ":" ++ s) now res).2) := by
  unfold V2.acquireLock
  rw [getOptions_full_V2 V2.builtinDefaults rl rd ttl hrl hrd httl,
    getRedisKey_str_V2 s hs]

example : V1.getOptions V1.builtinDefaults ⟨none, some 0, none⟩ =
    Except.ok ⟨10, 1000, 3⟩ := rfl

example : V2.getOptions V2.builtinDefaults ⟨none, some 0, none⟩ =
    Except.error invalidRetryDelayMsg := rfl

example : V2.getOptions V2.builtinDefaults ⟨none, none, some 0⟩ =
    Except.ok ⟨10, 100, 0⟩ := rfl

example :
    (V2.acquireLock V2.builtinDefaults (LockNameArg.str "beer")
      ⟨some 3, some 10, some 5⟩ "t" (fun i => decide (i = 2))).1 =
    Except.ok true := by
  simp [V2.acquireLock, V2.getOptions, V2.getRedisKey, V2.builtinDefaults,
    validateOptions, acquireBody, acquireLoop, applyLock]

example :
    countSet (V2.acquireLock V2.builtinDefaults (LockNameArg.str "beer")
      ⟨some 3, some 10, some 5⟩ "t" (fun i => decide (i = 2))).2 = 3 := by
  simp [V2.acquireLock, V2.getOptions, V2.getRedisKey, V2.builtinDefaults,
    validateOptions, acquireBody, acquireLoop, applyLock, countSet]

example :
    countSleep (V2.acquireLock V2.builtinDefaults (LockNameArg.str "beer")
      ⟨some 3, some 10, some 5⟩ "t" (fun i => decide (i = 2))).2 = 2 := by
  simp [V2.acquireLock, V2.getOptions, V2.getRedisKey, V2.builtinDefaults,
    validateOptions, acquireBody, acquireLoop, applyLock, countSleep]

example :
    (V2.acquireLock V2.builtinDefaults (LockNameArg.str "beer")
      ⟨some 1, some 10, some 5⟩ "t" (fun _ => false)).1 =
    Except.ok false := by
  simp [V2.acquireLock, V2.getOptions, V2.getRedisKey, V2.builtinDefaults,
    validateOptions, acquireBody, acquireLoop, applyLock]

/-- C1: for every non-empty lock name, every resolved option set with positive
integer `retryLimit` (and valid `retryDelay`, `ttl`), and every sequence of
`setIfAbsent` results, `acquireLock` — in both variants of the class — performs
at most `retryLimit + 1` `setIfAbsent` attempts, every inter-attempt wait is a
sleep of exactly `retryDelay`, it returns `true` after exactly `N + 1` attempts
and `N` sleeps when the first `N` attempts fail and attempt `N + 1` succeeds
(`N ≤ retryLimit`), and it returns `false` without throwing, after exactly
`retryLimit + 1` attempts and `retryLimit` sleeps, when all attempts fail. -/
theorem acquireLock_retry_semantics (rl rd ttl : Int)
    (hrl : 0 < rl) (hrd : 0 < rd) (httl : 0 ≤ ttl)
    (s : String) (hs : s ≠ "") (now : String) (res : Nat → Bool) :
    ∀ out ∈ [V1.acquireLock V1.builtinDefaults (LockNameArg.str s)
        ⟨some rl, some rd, some ttl⟩ now res,
      V2.acquireLock V2.builtinDefaults (LockNameArg.str s)
        ⟨some rl, some rd, some ttl⟩ now res],
      countSet out.2 ≤ rl.toNat + 1 ∧
      (∀ ms : Int, Event.sleep ms ∈ out.2 → ms = rd) ∧
      (∀ N : Nat, N ≤ rl.toNat → (∀ i, i < N → res i = false) → res N = true →
        out.1 = Except.ok true ∧ countSet out.2 = N + 1 ∧ countSleep out.2 = N) ∧
      ((∀ i, i ≤ rl.toNat → res i = false) →
        out.1 = Except.ok false ∧ countSet out.2 = rl.toNat + 1 ∧
        countSleep out.2 = rl.toNat) := by
  obtain ⟨R, rfl⟩ : ∃ R : Nat, rl = (R : Int) :=
    ⟨rl.toNat, (Int.toNat_of_nonneg hrl.le).symm⟩
  intro out hout
  rw [Int.toNat_natCast]
  simp only [List.mem_cons, List.not_mem_nil, or_false] at hout
  rcases hout with rfl | rfl
  · rw [acquireLock_eq_body_V1 _ rd ttl hrl hrd httl s hs now res]
    have hb := acquireBody_retry R rd (if ttl = 0 then 3 else ttl)
      (packageName ++ ":" ++ s) now res
    dsimp only
    refine ⟨hb.1, hb.2.1, ?_, ?_⟩
    · intro N h1 h2 h3
      obtain ⟨ha, hcs, hsl⟩ := hb.2.2.1 N h1 h2 h3
      exact ⟨by rw [ha], hcs, hsl⟩
    · intro h1
      obtain ⟨ha, hcs, hsl⟩ := hb.2.2.2.1 h1
      exact ⟨by rw [ha], hcs, hsl⟩
  · rw [acquireLock_eq_body_V2 _ rd ttl hrl hrd httl s hs now res]
    have hb := acquireBody_retry R rd ttl (packageName ++ ":" ++ s) now res
    dsimp only
    refine ⟨hb.1, hb.2.1, ?_, ?_⟩
    · intro N h1 h2 h3
      obtain ⟨ha, hcs, hsl⟩ := hb.2.2.1 N h1 h2 h3
      exact ⟨by rw [ha], hcs, hsl⟩
    · intro h1
      obtain ⟨ha, hcs, hsl⟩ := hb.2.2.2.1 h1
      exact ⟨by rw [ha], hcs, hsl⟩

/-- C1 witness: the spec's concrete scenario — options `{retryLimit: 3,
retryDelay: 10, ttl: 5}`, lock name `"beer"`, `setIfAbsent` failing on attempts
0 and 1 and succeeding on attempt 2 — yields `true` after 3 attempts and 2
sleeps. -/
theorem acquireLock_retry_semantics_witness :
    (V2.acquireLock V2.builtinDefaults (LockNameArg.str "beer")
      ⟨some 3, some 10, some 5⟩ "t" (fun i => decide (i = 2))).1 = Except.ok true ∧
    countSet (V2.acquireLock V2.builtinDefaults (LockNameArg.str "beer")
      ⟨some 3, some 10, some 5⟩ "t" (fun i => decide (i = 2))).2 = 3 ∧
    countSleep (V2.acquireLock V2.builtinDefaults (LockNameArg.str "beer")
      ⟨some 3, some 10, some 5⟩ "t" (fun i => decide (i = 2))).2 = 2 := by
  have h := acquireLock_retry_semantics 3 10 5 (by decide) (by decide) (by decide)
    "beer" (by decide) "t" (fun i => decide (i = 2))
  have h2 := (h (V2.acquireLock V2.builtinDefaults (LockNameArg.str "beer")
      ⟨some 3, some 10, some 5⟩ "t" (fun i => decide (i = 2)))
      (by simp)).2.2.1 2 (by decide) (by decide) (by decide)
  exact ⟨h2.1, h2.2.1, h2.2.2⟩

/-- C9: for every option set accepted by validation and every infinite sequence
of store responses, the retry loop of `acquireLock` (both variants) terminates
after at most `retryLimit + 1` attempts, ending either in success (`ok true`)
or in retry exhaustion (`ok false` after exactly `retryLimit + 1` attempts);
termination itself is witnessed by the embedding, whose loop recurses on the
strictly decreasing measure `retryLimit - counter`. -/
theorem acquireLock_bounded_termination (rl rd ttl : Int)
    (hrl : 0 < rl) (hrd : 0 < rd) (httl : 0 ≤ ttl)
    (s : String) (hs : s ≠ "") (now : String) (res : Nat → Bool) :
    ∀ out ∈ [V1.acquireLock V1.builtinDefaults (LockNameArg.str s)
        ⟨some rl, some rd, some ttl⟩ now res,
      V2.acquireLock V2.builtinDefaults (LockNameArg.str s)
        ⟨some rl, some rd, some ttl⟩ now res],
      countSet out.2 ≤ rl.toNat + 1 ∧
      (out.1 = Except.ok true ∨
        (out.1 = Except.ok false ∧ countSet out.2 = rl.toNat + 1)) := by
  obtain ⟨R, rfl⟩ : ∃ R : Nat, rl = (R : Int) :=
    ⟨rl.toNat, (Int.toNat_of_nonneg hrl.le).symm⟩
  intro out hout
  rw [Int.toNat_natCast]
  simp only [List.mem_cons, List.not_mem_nil, or_false] at hout
  rcases hout with rfl | rfl
  · rw [acquireLock_eq_body_V1 _ rd ttl hrl hrd httl s hs now res]
    have hb := acquireBody_retry R rd (if ttl = 0 then 3 else ttl)
      (packageName ++ ":" ++ s) now res
    dsimp only
    refine ⟨hb.1, ?_⟩
    cases hres : (acquireBody ⟨(R : Int), rd, if ttl = 0 then 3 else ttl⟩
        (packageName ++ ":" ++ s) now res).1 with
    | true => exact Or.inl rfl
    | false => exact Or.inr ⟨rfl, hb.2.2.2.2.1 hres⟩
  · rw [acquireLock_eq_body_V2 _ rd ttl hrl hrd httl s hs now res]
    have hb := acquireBody_retry R rd ttl (packageName ++ ":" ++ s) now res
    dsimp only
    refine ⟨hb.1, ?_⟩
    cases hres : (acquireBody ⟨(R : Int), rd, ttl⟩
        (packageName ++ ":" ++ s) now res).1 with
    | true => exact Or.inl rfl
    | false => exact Or.inr ⟨rfl, hb.2.2.2.2.1 hres⟩

/-- C9 witness: with `retryLimit = 2` and a store that always refuses,
`acquireLock` makes at most 3 attempts and ends in exhaustion. -/
theorem acquireLock_bounded_termination_witness :
    countSet (V1.acquireLock V1.builtinDefaults (LockNameArg.str "x")
      ⟨some 2, some 7, some 0⟩ "t" (fun _ => false)).2 ≤ 3 := by
  have h := acquireLock_bounded_termination 2 7 0 (by decide) (by decide)
    (by decide) "x" (by decide) "t" (fun _ => false)
  exact (h _ (by simp)).1

/-- C10: within a single `acquireLock` call (both variants), every `setIfAbsent`
attempt carries the identical key and the identical payload, namely the JSON
string built from the timestamp at the start of the call — so the recorded
acquisition time is the call-start time, not the time of the successful
attempt. -/
theorem acquireLock_payload_consistent (rl rd ttl : Int)
    (hrl : 0 < rl) (hrd : 0 < rd) (httl : 0 ≤ ttl)
    (s : String) (hs : s ≠ "") (now : String) (res : Nat → Bool) :
    ∀ out ∈ [V1.acquireLock V1.builtinDefaults (LockNameArg.str s)
        ⟨some rl, some rd, some ttl⟩ now res,
      V2.acquireLock V2.builtinDefaults (LockNameArg.str s)
        ⟨some rl, some rd, some ttl⟩ now res],
      ∀ k2 p2, Event.op (StoreOp.setIfAbsent k2 p2) ∈ out.2 →
        k2 = packageName ++ ":" ++ s ∧ p2 = payloadFor now := by
  obtain ⟨R, rfl⟩ : ∃ R : Nat, rl = (R : Int) :=
    ⟨rl.toNat, (Int.toNat_of_nonneg hrl.le).symm⟩
  intro out hout
  simp only [List.mem_cons, List.not_mem_nil, or_false] at hout
  rcases hout with rfl | rfl
  · rw [acquireLock_eq_body_V1 _ rd ttl hrl hrd httl s hs now res]
    have hb := acquireBody_retry R rd (if ttl = 0 then 3 else ttl)
      (packageName ++ ":" ++ s) now res
    dsimp only
    intro k2 p2 hmem
    rcases hb.2.2.2.2.2 _ hmem with h | h | h <;> simp_all
  · rw [acquireLock_eq_body_V2 _ rd ttl hrl hrd httl s hs now res]
    have hb := acquireBody_retry R rd ttl (packageName ++ ":" ++ s) now res
    dsimp only
    intro k2 p2 hmem
    rcases hb.2.2.2.2.2 _ hmem with h | h | h <;> simp_all

/-- C10 witness: in a call that succeeds immediately, the key and payload of
the recorded `setIfAbsent` attempt are the derived key and the payload built
from the call-start timestamp. -/
theorem acquireLock_payload_consistent_witness :
    "redis-promise-lock:y" = packageName ++ ":" ++ "y" ∧
    payloadFor "2020" = "\x7b\"lockedSince\":\"2020\"\x7d" := by
  have h := acquireLock_payload_consistent 1 1 1 (by decide) (by decide)
    (by decide) "y" (by decide) "2020" (fun _ => true)
  have hm := h (V2.acquireLock V2.builtinDefaults (LockNameArg.str "y")
      ⟨some 1, some 1, some 1⟩ "2020" (fun _ => true)) (by simp)
      "redis-promise-lock:y" (payloadFor "2020") (by
        rw [acquireLock_eq_body_V2 1 1 1 (by decide) (by decide) (by decide)
          "y" (by decide) "2020" (fun _ => true)]
        rw [acquireBody_eq]
        simp [applyLock, payloadFor, packageName])
  exact ⟨hm.1, rfl⟩

lemma getRedisKey_invalid_V1 (a : LockNameArg)
    (ha : ∀ t, a = LockNameArg.str t → t = "") :
    V1.getRedisKey a = Except.error V1.invalidLockNameMsg := by
  cases a with
  | str s => simp [V1.getRedisKey, ha s rfl]
  | undef => rfl
  | nonString t => rfl

lemma getRedisKey_invalid_V2 (a : LockNameArg)
    (ha : ∀ t, a = LockNameArg.str t → t = "") :
    V2.getRedisKey a = Except.error V2.invalidLockNameMsg := by
  cases a with
  | str s => simp [V2.getRedisKey, ha s rfl]
  | undef => rfl
  | nonString t => rfl

/-- C2: the single-attempt acquisition `applyLock` returns the boolean result of
`setIfAbsent` unchanged, and performs `expire(key, ttl)` exactly once if and
only if `setIfAbsent` returned true and `ttl ≠ 0`; when `setIfAbsent` returns
false or `ttl = 0` no expire is issued (the trace is just the single
`setIfAbsent`). -/
theorem applyLock_expire_spec (key payload : String) (ttl : Int) (r : Bool) :
    (applyLock key payload ttl r).1 = r ∧
    countExpire (applyLock key payload ttl r).2 =
      (if r = true ∧ ttl ≠ 0 then 1 else 0) ∧
    ((r = true ∧ ttl ≠ 0) →
      (applyLock key payload ttl r).2 =
        [StoreOp.setIfAbsent key payload, StoreOp.expire key ttl]) ∧
    ((r = false ∨ ttl = 0) →
      (applyLock key payload ttl r).2 = [StoreOp.setIfAbsent key payload]) := by
  cases r <;> by_cases h : ttl = 0 <;>
    simp [applyLock, countExpire, h]

/-- C5: both variants of `getRedisKey` fail with the invalid-lock-name error on
the empty string, on a missing argument, and on every non-string value, and on
every non-empty string return the fixed namespace constant
`"redis-promise-lock"` followed by `":"` and the lock name (deterministic, as a
pure function of the name). -/
theorem getRedisKey_spec (s : String) (hs : s ≠ "") :
    (V1.getRedisKey (LockNameArg.str s) =
        Except.ok ("redis-promise-lock" ++ ":" ++ s) ∧
      V2.getRedisKey (LockNameArg.str s) =
        Except.ok ("redis-promise-lock" ++ ":" ++ s)) ∧
    (V1.getRedisKey (LockNameArg.str "") = Except.error V1.invalidLockNameMsg ∧
      V2.getRedisKey (LockNameArg.str "") = Except.error V2.invalidLockNameMsg) ∧
    (∀ a : LockNameArg, a.isString = false →
      V1.getRedisKey a = Except.error V1.invalidLockNameMsg ∧
      V2.getRedisKey a = Except.error V2.invalidLockNameMsg) := by
  refine ⟨⟨?_, ?_⟩, ⟨rfl, rfl⟩, ?_⟩
  · simp [V1.getRedisKey, hs, packageName]
  · simp [V2.getRedisKey, hs, packageName]
  · intro a ha
    cases a with
    | str t => simp [LockNameArg.isString] at ha
    | undef => exact ⟨rfl, rfl⟩
    | nonString t => exact ⟨rfl, rfl⟩

/-- C5 witness: `getRedisKey("x")` yields `"redis-promise-lock:x"` in both
variants. -/
theorem getRedisKey_spec_witness :
    V1.getRedisKey (LockNameArg.str "x") =
      Except.ok ("redis-promise-lock" ++ ":" ++ "x") := by
  exact (getRedisKey_spec "x" (by decide)).1.1

/-- C6: for every non-empty lock name, `releaseLock` (both variants) issues
exactly one store operation, a `delete` of exactly the key that `getRedisKey`
produces for that name, unconditionally and without error. -/
theorem releaseLock_spec (s : String) (hs : s ≠ "") :
    V1.releaseLock (LockNameArg.str s) =
      (Except.ok (), [Event.op (StoreOp.del ("redis-promise-lock" ++ ":" ++ s))]) ∧
    V2.releaseLock (LockNameArg.str s) =
      (Except.ok (), [Event.op (StoreOp.del ("redis-promise-lock" ++ ":" ++ s))]) ∧
    V1.getRedisKey (LockNameArg.str s) =
      Except.ok ("redis-promise-lock" ++ ":" ++ s) ∧
    V2.getRedisKey (LockNameArg.str s) =
      Except.ok ("redis-promise-lock" ++ ":" ++ s) := by
  refine ⟨?_, ?_, ?_, ?_⟩ <;>
    simp [V1.releaseLock, V2.releaseLock, V1.getRedisKey, V2.getRedisKey, hs,
      packageName]

/-- C6 witness: releasing `"gunna"` (the repository's own test case) deletes
exactly `"redis-promise-lock:gunna"`. -/
theorem releaseLock_spec_witness :
    V2.releaseLock (LockNameArg.str "gunna") =
      (Except.ok (), [Event.op (StoreOp.del ("redis-promise-lock" ++ ":" ++ "gunna"))]) := by
  exact (releaseLock_spec "gunna" (by decide)).2.1

/-- C8: for every lock name that is missing, empty, or a non-string, both
`acquireLock` (with otherwise valid options) and `releaseLock` fail with the
invalid-lock-name error before any store call: the store trace is empty, so no
`setIfAbsent`, `expire` or `delete` is performed. -/
theorem acquireLock_invalid_name_no_store_ops (a : LockNameArg)
    (ha : ∀ t, a = LockNameArg.str t → t = "")
    (o : OptionalLockOptions) (now : String) (res : Nat → Bool)
    (h1 : ∃ r1, V1.getOptions V1.builtinDefaults o = Except.ok r1)
    (h2 : ∃ r2, V2.getOptions V2.builtinDefaults o = Except.ok r2) :
    V1.acquireLock V1.builtinDefaults a o now res =
      (Except.error V1.invalidLockNameMsg, []) ∧
    V2.acquireLock V2.builtinDefaults a o now res =
      (Except.error V2.invalidLockNameMsg, []) ∧
    V1.releaseLock a = (Except.error V1.invalidLockNameMsg, []) ∧
    V2.releaseLock a = (Except.error V2.invalidLockNameMsg, []) := by
  obtain ⟨r1, hr1⟩ := h1
  obtain ⟨r2, hr2⟩ := h2
  have k1 := getRedisKey_invalid_V1 a ha
  have k2 := getRedisKey_invalid_V2 a ha
  refine ⟨?_, ?_, ?_, ?_⟩
  · unfold V1.acquireLock
    rw [hr1, k1]
  · unfold V2.acquireLock
    rw [hr2, k2]
  · unfold V1.releaseLock
    rw [k1]
  · unfold V2.releaseLock
    rw [k2]

/-- C8 witness: acquiring with the empty lock name and default options fails
with the invalid-lock-name error and an empty store trace. -/
theorem acquireLock_invalid_name_witness :
    V2.acquireLock V2.builtinDefaults (LockNameArg.str "") ⟨none, none, none⟩
      "t" (fun _ => true) = (Except.error V2.invalidLockNameMsg, []) := by
  have h := acquireLock_invalid_name_no_store_ops (LockNameArg.str "")
    (fun t ht => by injection ht with h2; exact h2.symm) ⟨none, none, none⟩ "t"
    (fun _ => true) ⟨_, rfl⟩ ⟨_, rfl⟩
  exact h.2.1

/-- C3 counterexample: in the `||` variant (lines 61-73), `getOptions({ttl: 0})`
succeeds but returns the instance default ttl 3, not the supplied 0 — a falsy
supplied value is not preserved. -/
theorem getOptions_ttl_zero_cex :
    V1.getOptions V1.builtinDefaults ⟨none, none, some 0⟩ =
      Except.ok ⟨10, 1000, 3⟩ ∧ (3 : Int) ≠ 0 :=
  ⟨rfl, by decide⟩

/-- C3 amended: in the `!==undefined` variant every explicitly supplied valid
value — including `ttl: 0` — is preserved and omitted fields equal the instance
defaults; in the `||` variant supplied nonzero values are preserved and omitted
fields default, but a supplied `ttl: 0` is falsy and falls back to the instance
default instead of being kept. -/
theorem getOptions_merge_amended (d : LockOptions) (o : OptionalLockOptions)
    (hd1 : 0 < d.retryLimit) (hd2 : 0 < d.retryDelay) (hd3 : 0 ≤ d.ttl)
    (h1 : ∀ x, o.retryLimit = some x → 0 < x)
    (h2 : ∀ x, o.retryDelay = some x → 0 < x)
    (h3 : ∀ x, o.ttl = some x → 0 ≤ x) :
    V2.getOptions d o =
      Except.ok ⟨o.retryLimit.getD d.retryLimit, o.retryDelay.getD d.retryDelay,
        o.ttl.getD d.ttl⟩ ∧
    V1.getOptions d o =
      Except.ok ⟨o.retryLimit.getD d.retryLimit, o.retryDelay.getD d.retryDelay,
        if o.ttl = some 0 then d.ttl else o.ttl.getD d.ttl⟩ := by
  obtain ⟨orl, ord, ottl⟩ := o
  dsimp only at h1 h2 h3 ⊢
  have Hrl : 0 < V1.jsOr orl d.retryLimit ∧
      V1.jsOr orl d.retryLimit = orl.getD d.retryLimit := by
    cases orl with
    | none => exact ⟨hd1, rfl⟩
    | some x =>
      have hx := h1 x rfl
      have hx0 : x ≠ 0 := by omega
      exact ⟨by simpa [V1.jsOr, hx0] using hx, by simp [V1.jsOr, hx0]⟩
  have Hrd : 0 < V1.jsOr ord d.retryDelay ∧
      V1.jsOr ord d.retryDelay = ord.getD d.retryDelay := by
    cases ord with
    | none => exact ⟨hd2, rfl⟩
    | some x =>
      have hx := h2 x rfl
      have hx0 : x ≠ 0 := by omega
      exact ⟨by simpa [V1.jsOr, hx0] using hx, by simp [V1.jsOr, hx0]⟩
  have Httl : 0 ≤ V1.jsOr ottl d.ttl ∧
      V1.jsOr ottl d.ttl = (if ottl = some 0 then d.ttl else ottl.getD d.ttl) := by
    cases ottl with
    | none => exact ⟨hd3, by simp [V1.jsOr]⟩
    | some x =>
      by_cases hx0 : x = 0
      · subst hx0
        exact ⟨by simpa [V1.jsOr] using hd3, by simp [V1.jsOr]⟩
      · have hx := h3 x rfl
        exact ⟨by simpa [V1.jsOr, hx0] using hx, by simp [V1.jsOr, hx0]⟩
  have Hrl2 : 0 < orl.getD d.retryLimit := by
    cases orl with
    | none => exact hd1
    | some x => exact h1 x rfl
  have Hrd2 : 0 < ord.getD d.retryDelay := by
    cases ord with
    | none => exact hd2
    | some x => exact h2 x rfl
  have Httl2 : 0 ≤ ottl.getD d.ttl := by
    cases ottl with
    | none => exact hd3
    | some x => exact h3 x rfl
  have Httl3 : 0 ≤ (if ottl = some 0 then d.ttl else ottl.getD d.ttl) :=
    Httl.2 ▸ Httl.1
  constructor
  · simp [V2.getOptions, validateOptions, Hrl2, Hrd2, Httl2]
  · simp [V1.getOptions, validateOptions, Hrl.2, Hrd.2, Httl.2,
      not_le.mpr Hrl2, not_le.mpr Hrd2, not_lt.mpr Httl3]

/-- C3 witness: with defaults `{10, 1000, 3}` and `{ttl: 0}` supplied, the
`!==undefined` variant keeps ttl 0 while the `||` variant returns the default
ttl 3. -/
theorem getOptions_merge_amended_witness :
    V2.getOptions ⟨10, 1000, 3⟩ ⟨none, none, some 0⟩ =
      Except.ok ⟨10, 1000, 0⟩ ∧
    V1.getOptions ⟨10, 1000, 3⟩ ⟨none, none, some 0⟩ =
      Except.ok ⟨10, 1000, 3⟩ := by
  have h := getOptions_merge_amended ⟨10, 1000, 3⟩ ⟨none, none, some 0⟩
    (by decide) (by decide) (by decide)
    (fun x hx => by simp at hx) (fun x hx => by simp at hx)
    (fun x hx => by injection hx with h2; omega)
  exact h

/-- C4: evaluation at the failing input — in the `||` variant (lines 61-73) a
supplied `retryDelay: 0` is falsy, silently falls back to the instance default,
and `getOptions` returns `{10, 1000, 3}` successfully instead of raising the
retryDelay `InvalidOptionError` required by the claim and asserted by the
repository's own test (`expect(() => l1.getOptions({ retryDelay: 0
})).toThrowError(...)`); the `!==undefined` variant does raise it. -/
theorem getOptions_retryDelay_zero_eval :
    V1.getOptions V1.builtinDefaults ⟨none, some 0, none⟩ =
      Except.ok ⟨10, 1000, 3⟩ ∧
    V2.getOptions V2.builtinDefaults ⟨none, some 0, none⟩ =
      Except.error invalidRetryDelayMsg :=
  ⟨rfl, rfl⟩

/-- C7 counterexample: the `||` variant constructor stores an invalid
`retryLimit: -5` with no construction-time validation error, and the
`!==undefined` variant constructor accepts a `null` store reference without the
initialization error. -/
theorem lock_constructor_cex :
    V1.Lock.mk ClientArg.present ⟨some (-5), none, none⟩ =
      Except.ok ⟨-5, 1000, 3⟩ ∧
    V2.Lock.mk ClientArg.nullRef ⟨none, none, none⟩ =
      Except.ok ⟨10, 100, 3⟩ :=
  ⟨rfl, rfl⟩

/-- C7 amended: in the `||` variant, construction fails with the
initialization error exactly when the store reference is falsy (undefined or
null), and otherwise stores the `||`-merged options without any validation (so
invalid supplied values such as a negative retryLimit are stored silently); in
the `!==undefined` variant, construction fails with the initialization error
only when the store is undefined (null is accepted), and otherwise resolves and
validates the options against the built-in defaults, so that a validation
failure (e.g. `retryLimit ≤ 0`) propagates as a construction-time error. -/
theorem lock_constructor_amended (o : OptionalLockOptions) :
    (V1.Lock.mk ClientArg.undef o = Except.error noClientMsg ∧
      V1.Lock.mk ClientArg.nullRef o = Except.error noClientMsg) ∧
    (V1.Lock.mk ClientArg.present o =
      Except.ok ⟨V1.jsOr o.retryLimit 10, V1.jsOr o.retryDelay 1000,
        V1.jsOr o.ttl 3⟩) ∧
    (∀ x : Int, x < 0 →
      V1.Lock.mk ClientArg.present ⟨some x, none, none⟩ =
        Except.ok ⟨x, 1000, 3⟩) ∧
    (V2.Lock.mk ClientArg.undef o = Except.error noClientMsg) ∧
    (V2.Lock.mk ClientArg.nullRef o = V2.getOptions V2.builtinDefaults o) ∧
    (V2.Lock.mk ClientArg.present o = V2.getOptions V2.builtinDefaults o) ∧
    (∀ x : Int, x ≤ 0 →
      V2.Lock.mk ClientArg.present ⟨some x, none, none⟩ =
        Except.error invalidRetryLimitMsg) := by
  refine ⟨⟨rfl, rfl⟩, rfl, ?_, rfl, rfl, rfl, ?_⟩
  · intro x hx
    have hx0 : x ≠ 0 := by omega
    simp [V1.Lock.mk, V1.jsOr, hx0, ClientArg.truthyB, V1.builtinDefaults]
  · intro x hx
    simp [V2.Lock.mk, V2.getOptions, validateOptions, V2.builtinDefaults,
      not_lt.mpr hx]
